import Mathlib

/-!
Verification development for the wcpos/query replication-and-query engine.

The definitions below are a shallow embedding of the TypeScript sources:
* `QR` embeds `src/query-replication-state.ts` (`QueryReplicationState`);
* `QS` embeds `src/query-state.ts` and the second `Query` variant
  (the reactive parameter/result pipeline);
* `MG` embeds the `Manager` class (registries, registration, deregistration,
  reference-counted pausing).

Async methods are modelled as pure state-transition functions: each `await`ed
collaborator (HTTP client, store, search service, hooks) is an explicit
function parameter in an environment record, and fallible collaborators return
`Except`.
-/

namespace QR

/-- Errors that can be raised during a fetch cycle.  `http` is a transport
failure, `invalidResponse` the `Invalid response data for query replication`
throw, `parseFail`/`upsertFail` failures of `parseRestResponse`/`upsertRefs`
(rejecting inside the `Promise.all`) and of `bulkUpsert`. -/
inductive Err where
  | http (code : Nat)
  | invalidResponse
  | parseFail (code : Nat)
  | upsertFail (code : Nat)
deriving DecidableEq, Repr

/-- The HTTP request that one fetch cycle issues.
`byInclude ids` is the POST with `{ include: ids, exclude: undefined }`,
`byExclude ids` the POST with `{ include: undefined, exclude: ids }`
(both with the `X-HTTP-Method-Override: GET` header, via
`fetchUnsyncedRemoteIDs`), and `modifiedAfter t` the GET with
`params: { modified_after: t }` (via `fetchLastModified`). -/
inductive Request where
  | byInclude (ids : List Nat)
  | byExclude (ids : List Nat)
  | modifiedAfter (t : Nat)
deriving DecidableEq, Repr

/-- The body of a remote response: `response.data` is either an array of raw
documents (`list`) or not an array at all (`nonList`). -/
inductive ResponseData where
  | list (docs : List Nat)
  | nonList
deriving DecidableEq, Repr

/-- The mutable fields of a `QueryReplicationState` that the claims observe:
`subjects.paused`, `isCanceled` (from `SubscribableBase`), `subjects.active`,
and the `syncCompleted` field. -/
structure QRState where
  paused : Bool
  isCanceled : Bool
  active : Bool
  syncCompleted : Bool
deriving DecidableEq, Repr

/-- `isStopped()` — canceled or paused. -/
def isStopped (s : QRState) : Bool :=
  s.isCanceled || s.paused

/-- The environment one `fetchUnsynced` cycle runs against: the two awaited
ID sets from the collection replication, the `lastModified` cursor value,
the HTTP client's behaviour on each possible request, the per-document
parse/upsertRefs step, and the final `bulkUpsert`. -/
structure FetchEnv where
  includeIDs : List Nat
  excludeIDs : List Nat
  lastModified : Nat
  http : Request → Except Err ResponseData
  parseDoc : Nat → Except Err Nat
  bulkUpsert : List Nat → Except Err Unit

/-- The request-choice logic of `fetchUnsynced` (lines 119–127 of
`query-replication-state.ts`):
`if (isEmpty(include)) fetchLastModified else
 if (exclude?.length < include?.length) fetchUnsyncedRemoteIDs({exclude})
 else fetchUnsyncedRemoteIDs({include})`. -/
def requestStrategy (includeIDs excludeIDs : List Nat) (lastModified : Nat) : Request :=
  if includeIDs.isEmpty then Request.modifiedAfter lastModified
  else if excludeIDs.length < includeIDs.length then Request.byExclude excludeIDs
  else Request.byInclude includeIDs

/-- The `try` block of `fetchUnsynced`, given the `syncCompleted` field at
entry.  Returns the value of `syncCompleted` when the block exits (the
`this.syncCompleted = true` write happens before parse/upsert and persists
even if a later step throws) together with either the parsed batch or the
raised error. -/
def tryBlock (syncCompleted : Bool) (env : FetchEnv) :
    Bool × Except Err (List Nat) :=
  let req := requestStrategy env.includeIDs env.excludeIDs env.lastModified
  match env.http req with
  | Except.error e => (syncCompleted, Except.error e)
  | Except.ok ResponseData.nonList => (syncCompleted, Except.error Err.invalidResponse)
  | Except.ok (ResponseData.list docs) =>
    let sc := if docs.isEmpty then true else syncCompleted
    match docs.mapM env.parseDoc with
    | Except.error e => (sc, Except.error e)
    | Except.ok parsed =>
      match env.bulkUpsert parsed with
      | Except.error e => (sc, Except.error e)
      | Except.ok _ => (sc, Except.ok parsed)

/-- What a `fetchUnsynced` call did: returned early (stopped or already
active), delegated to `collectionReplication.fetchUnsynced()` (the
`syncCompleted` branch), or issued its own remote request. -/
inductive CycleAction where
  | noop
  | delegated
  | ownRequest (r : Request)
deriving DecidableEq, Repr

/-- The observable outcome of one `fetchUnsynced` call: the state afterwards,
the action taken, the errors pushed onto `errorSubject`, and the batch that
was bulk-upserted (if the cycle completed without error). -/
structure CycleResult where
  state : QRState
  action : CycleAction
  errors : List Err
  upserted : Option (List Nat)
deriving DecidableEq, Repr

/-- `QueryReplicationState.fetchUnsynced`, embedded as a state transition.
Mirrors the source line by line: the stopped/active guard; `active := true`;
the `syncCompleted` early delegation (clearing `active` first); otherwise the
`try` block with `catch (error) { errorSubject.next(error) }` and
`finally { active := false }`. -/
def fetchUnsynced (s : QRState) (env : FetchEnv) : CycleResult :=
  if isStopped s || s.active then
    { state := s, action := CycleAction.noop, errors := [], upserted := none }
  else
    let s1 : QRState := { s with active := true }
    if s1.syncCompleted then
      { state := { s1 with active := false }, action := CycleAction.delegated,
        errors := [], upserted := none }
    else
      let req := requestStrategy env.includeIDs env.excludeIDs env.lastModified
      match tryBlock s1.syncCompleted env with
      | (sc, Except.error e) =>
        { state := { s1 with syncCompleted := sc, active := false },
          action := CycleAction.ownRequest req, errors := [e], upserted := none }
      | (sc, Except.ok parsed) =>
        { state := { s1 with syncCompleted := sc, active := false },
          action := CycleAction.ownRequest req, errors := [], upserted := some parsed }

/-- The request strategy exactly as claim C1 words it: fall back to the
modified-after-cursor request only when both ID sets are empty; otherwise
request by `exclude` when the synced IDs outnumber the unsynced IDs, else by
`include`.  (Kept separate from `requestStrategy`, which is translated from
the source, so the two can be compared.) -/
def claimStrategyC1 (includeIDs excludeIDs : List Nat) (lastModified : Nat) : Request :=
  if includeIDs.isEmpty ∧ excludeIDs.isEmpty then Request.modifiedAfter lastModified
  else if includeIDs.length < excludeIDs.length then Request.byExclude excludeIDs
  else Request.byInclude includeIDs

/-- A concrete non-stopped, non-active, not-yet-completed state. -/
def s0 : QRState :=
  { paused := false, isCanceled := false, active := false, syncCompleted := false }

/-- A concrete environment with no unsynced remote IDs (`include = []`) but
one already-synced remote ID (`exclude = [5]`) and cursor `7`. -/
def env0 : FetchEnv :=
  { includeIDs := [], excludeIDs := [5], lastModified := 7,
    http := fun _ => Except.ok (ResponseData.list []),
    parseDoc := fun d => Except.ok d,
    bulkUpsert := fun _ => Except.ok () }

/-- The errors that the `try` block's outcome pushes onto the error channel:
one error when the block threw, none when it succeeded. -/
def raisedErrors (r : Bool × Except Err (List Nat)) : List Err :=
  match r.2 with
  | Except.error e => [e]
  | Except.ok _ => []

/-- In a cycle that actually starts and has not completed its own sync, the
action is always the own request chosen by `requestStrategy`, whatever the
response, parse, and upsert outcomes are. -/
theorem fetchUnsynced_action_eq (s : QRState) (env : FetchEnv)
    (hstop : isStopped s = false) (hact : s.active = false)
    (hsc : s.syncCompleted = false) :
    (fetchUnsynced s env).action
      = CycleAction.ownRequest
          (requestStrategy env.includeIDs env.excludeIDs env.lastModified) := by
  unfold fetchUnsynced
  rw [hstop, hact]
  simp only [Bool.or_self, Bool.false_eq_true, if_false]
  have h1 : ({ s with active := true } : QRState).syncCompleted = false := hsc
  rw [h1]
  simp only [Bool.false_eq_true, if_false]
  cases htb : tryBlock false env with
  | mk sc r => cases r <;> rfl

/-- C1, counterexample: with no unsynced IDs (`include = []`) but one synced
ID (`exclude = [5]`), the code issues the modified-after-cursor request, while
the claim's strategy (fall back to the cursor only when both sets are empty,
request by exclude when synced outnumber unsynced) would issue the request by
`exclude` — so the claim, as stated, is false on this input. -/
theorem c1_requestChoice_counterexample :
    (fetchUnsynced s0 env0).action
      = CycleAction.ownRequest (Request.modifiedAfter 7) ∧
    claimStrategyC1 [] [5] 7 = Request.byExclude [5] ∧
    Request.modifiedAfter 7 ≠ Request.byExclude [5] := by
  refine ⟨rfl, rfl, ?_⟩
  decide

/-- C1, amended: in a fetchUnsynced cycle that issues its own request
(syncCompleted false, not stopped, not already active), the request is made by
`exclude` when the synced IDs are strictly fewer than the unsynced IDs for
this query's scope, else by `include`, and whenever the unsynced ID set is
empty — regardless of the synced set — it falls back to a
modified-after-cursor request. -/
theorem c1_requestChoice_amended (s : QRState) (env : FetchEnv)
    (hstop : isStopped s = false) (hact : s.active = false)
    (hsc : s.syncCompleted = false) :
    (env.includeIDs = [] →
      (fetchUnsynced s env).action
        = CycleAction.ownRequest (Request.modifiedAfter env.lastModified)) ∧
    (env.includeIDs ≠ [] → env.excludeIDs.length < env.includeIDs.length →
      (fetchUnsynced s env).action
        = CycleAction.ownRequest (Request.byExclude env.excludeIDs)) ∧
    (env.includeIDs ≠ [] → ¬ env.excludeIDs.length < env.includeIDs.length →
      (fetchUnsynced s env).action
        = CycleAction.ownRequest (Request.byInclude env.includeIDs)) := by
  have hA := fetchUnsynced_action_eq s env hstop hact hsc
  refine ⟨fun hinc => ?_, fun hinc hlt => ?_, fun hinc hlt => ?_⟩ <;> rw [hA]
  · simp [requestStrategy, hinc]
  · simp [requestStrategy, List.isEmpty_iff, hinc, hlt]
  · simp [requestStrategy, List.isEmpty_iff, hinc, hlt]

/-- Witness for the amended C1 at a concrete input. -/
theorem c1_requestChoice_witness :
    (fetchUnsynced s0 env0).action
      = CycleAction.ownRequest (Request.modifiedAfter 7) :=
  (c1_requestChoice_amended s0 env0 rfl rfl rfl).1 rfl

/-- C2: a fetchUnsynced cycle that issues its own request and receives a
successful response with an empty data list sets `syncCompleted` to true, and
from any state with `syncCompleted = true` every fetchUnsynced call that is
not stopped and not active issues no request of its own but delegates to the
owning collection replication, leaving `syncCompleted` set. -/
theorem c2_syncExhaustion (s : QRState) (env : FetchEnv)
    (hstop : isStopped s = false) (hact : s.active = false)
    (hsc : s.syncCompleted = false)
    (hresp : env.http (requestStrategy env.includeIDs env.excludeIDs env.lastModified)
      = Except.ok (ResponseData.list [])) :
    (fetchUnsynced s env).state.syncCompleted = true ∧
    (∀ (s' : QRState) (env' : FetchEnv), s'.syncCompleted = true →
      isStopped s' = false → s'.active = false →
      (fetchUnsynced s' env').action = CycleAction.delegated ∧
      (fetchUnsynced s' env').state.syncCompleted = true) := by
  constructor
  · unfold fetchUnsynced
    rw [hstop, hact]
    simp only [Bool.or_self, Bool.false_eq_true, if_false, hsc]
    have htb : (tryBlock false env).1 = true := by
      cases hbu : env.bulkUpsert [] <;>
        simp [tryBlock, hresp, hbu, List.mapM.loop, pure, Except.pure]
    cases h2 : tryBlock false env with
    | mk sc r =>
      have hsc2 : sc = true := by rw [h2] at htb ; exact htb
      cases r <;> simpa using hsc2
  · intro s' env' hsc' hstop' hact'
    unfold fetchUnsynced
    rw [hstop', hact']
    simp [hsc']

/-- Witness for C2 at a concrete input. -/
theorem c2_syncExhaustion_witness :
    (fetchUnsynced s0 env0).state.syncCompleted = true :=
  (c2_syncExhaustion s0 env0 rfl rfl rfl rfl).1

/-- C4: in every fetchUnsynced cycle that actually starts (not stopped, not
already active), the `active` flag is cleared at the end in both the success
and the failure case, and when the cycle issues its own request the errors
pushed onto the shared error channel are exactly those raised inside the
`try` block — one pushed error per raised error, nothing propagated (the
transition is a total function). -/
theorem c4_errorHandling (s : QRState) (env : FetchEnv)
    (hstop : isStopped s = false) (hact : s.active = false) :
    (fetchUnsynced s env).state.active = false ∧
    (s.syncCompleted = false →
      (fetchUnsynced s env).errors = raisedErrors (tryBlock false env)) ∧
    (s.syncCompleted = true → (fetchUnsynced s env).errors = []) := by
  refine ⟨?_, fun hsc => ?_, fun hsc => ?_⟩
  · unfold fetchUnsynced
    rw [hstop, hact]
    simp only [Bool.or_self, Bool.false_eq_true, if_false]
    cases hsc : s.syncCompleted with
    | false =>
      simp only [hsc, Bool.false_eq_true, if_false]
      cases h2 : tryBlock false env with
      | mk sc r => cases r <;> rfl
    | true =>
      simp only [hsc, if_true]
  · unfold fetchUnsynced
    rw [hstop, hact]
    simp only [Bool.or_self, Bool.false_eq_true, if_false, hsc]
    cases h2 : tryBlock false env with
    | mk sc r => cases r <;> rfl
  · unfold fetchUnsynced
    rw [hstop, hact]
    simp [hsc]

/-- Witness for C4 at a concrete input. -/
theorem c4_errorHandling_witness :
    (fetchUnsynced s0 env0).state.active = false :=
  (c4_errorHandling s0 env0 rfl rfl).1

end QR

namespace MG

/-- Association-list lookup; the `Registry` class wraps a keyed map
(`has`/`get`/`set`/`delete`/`forEach`). -/
def rlookup {κ β : Type} [DecidableEq κ] : List (κ × β) → κ → Option β
  | [], _ => none
  | kv :: rest, k => if kv.1 = k then some kv.2 else rlookup rest k

/-- `Registry.set` — overwrite the entry for the key in place, else append. -/
def setReg {κ β : Type} [DecidableEq κ] : List (κ × β) → κ → β → List (κ × β)
  | [], k, v => [(k, v)]
  | kv :: rest, k, v => if kv.1 = k then (k, v) :: rest else kv :: setReg rest k v

/-- `Registry.delete` — remove the entry for the key. -/
def delReg {κ β : Type} [DecidableEq κ] : List (κ × β) → κ → List (κ × β)
  | [], _ => []
  | kv :: rest, k => if kv.1 = k then rest else kv :: delReg rest k

/-- A `replicationStates` entry: the variant of the replicator instance at an
endpoint (the `instanceof` checks in `registerCollectionReplication` /
`registerQueryReplication` branch on this), with the instance identified by a
numeric id. -/
inductive RepState where
  | collectionRep (rid : Nat)
  | queryRep (rid : Nat)
deriving DecidableEq, Repr

/-- The observable state of one shared `QueryReplicationState` instance:
its endpoint and its `paused` flag. -/
structure QueryRepInst where
  endpoint : String
  paused : Bool
deriving DecidableEq, Repr

/-- The Manager's registries.  `queryStates` maps serialized query key →
query-evaluator instance id, `replicationStates` endpoint → replicator,
`activeCollectionReplications` / `activeQueryReplications` query key →
replicator instance id.  `queryRepInsts` is the shared instance store
(`pause()` on an instance is visible through every registry entry that
references it), and `nextId` is a fresh-instance counter modelling `new`. -/
structure MState where
  queryStates : List (String × Nat)
  replicationStates : List (String × RepState)
  activeCollectionReplications : List (String × Nat)
  activeQueryReplications : List (String × Nat)
  queryRepInsts : List (Nat × QueryRepInst)
  nextId : Nat
deriving DecidableEq, Repr

/-- `QueryReplicationState.pause()` applied to instance `rid`. -/
def pauseInst (insts : List (Nat × QueryRepInst)) (rid : Nat) :
    List (Nat × QueryRepInst) :=
  insts.map (fun kv => if kv.1 = rid then (kv.1, { kv.2 with paused := true }) else kv)

/-- `QueryReplicationState.start()` applied to instance `rid`. -/
def startInst (insts : List (Nat × QueryRepInst)) (rid : Nat) :
    List (Nat × QueryRepInst) :=
  insts.map (fun kv => if kv.1 = rid then (kv.1, { kv.2 with paused := false }) else kv)

/-- The `paused` flag of instance `rid`, if such an instance exists. -/
def pausedOf (m : MState) (rid : Nat) : Option Bool :=
  (rlookup m.queryRepInsts rid).map (fun r => r.paused)

/-- `Manager.getActiveQueryReplicationStatesByEndpoint` — iterate the active
query replications and collect the states whose endpoint matches. -/
def getActiveQueryReplicationStatesByEndpoint (m : MState) (ep : String) :
    List Nat :=
  m.activeQueryReplications.filterMap (fun kv =>
    match rlookup m.queryRepInsts kv.2 with
    | some inst => if inst.endpoint = ep then some kv.2 else none
    | none => none)

/-- `Manager.maybePauseQueryReplications` — look up the departing query's
active query replication, count the active query replications on the same
endpoint, and pause the instance only when it is the sole referrer.  `none`
models the TypeError the source would raise when the query has no active
query replication (reading `.endpoint` of `undefined`). -/
def maybePauseQueryReplications (m : MState) (queryKey : String) : Option MState :=
  match rlookup m.activeQueryReplications queryKey with
  | none => none
  | some rid =>
    match rlookup m.queryRepInsts rid with
    | none => none
    | some inst =>
      if (getActiveQueryReplicationStatesByEndpoint m inst.endpoint).length = 1 then
        some { m with queryRepInsts := pauseInst m.queryRepInsts rid }
      else
        some m

/-- `Manager.deregisterQuery` — when the key is registered, delete it from the
three registries and then cancel the evaluator (cancellation tears down the
evaluator's own subscriptions and touches no replicator instance, so it has
no effect on this state). -/
def deregisterQuery (m : MState) (key : String) : MState :=
  if (rlookup m.queryStates key).isSome then
    { m with
      queryStates := delReg m.queryStates key,
      activeCollectionReplications := delReg m.activeCollectionReplications key,
      activeQueryReplications := delReg m.activeQueryReplications key }
  else m

/-- `Manager.registerCollectionReplication` — reuse the replicator registered
at the endpoint when it is a `CollectionReplicationState`; otherwise create a
fresh instance and store it; return the registry entry. -/
def registerCollectionReplication (m : MState) (endpoint : String) :
    MState × Nat :=
  match rlookup m.replicationStates endpoint with
  | some (RepState.collectionRep i) => (m, i)
  | _ =>
    let i := m.nextId
    ({ m with
        replicationStates := setReg m.replicationStates endpoint (RepState.collectionRep i),
        nextId := m.nextId + 1 }, i)

/-- `Manager.registerQueryReplication` — reuse the replicator registered at
the query endpoint when it is a `QueryReplicationState`; otherwise create a
fresh instance (which starts with `paused = true`) and store it; return the
registry entry. -/
def registerQueryReplication (m : MState) (queryEndpoint : String) :
    MState × Nat :=
  match rlookup m.replicationStates queryEndpoint with
  | some (RepState.queryRep i) => (m, i)
  | _ =>
    let i := m.nextId
    ({ m with
        replicationStates := setReg m.replicationStates queryEndpoint (RepState.queryRep i),
        queryRepInsts := setReg m.queryRepInsts i { endpoint := queryEndpoint, paused := true },
        nextId := m.nextId + 1 }, i)

/-- `Manager.onNewQueryState` — register and start the collection
replication, then run the `params$` subscription once (a `BehaviorSubject`
fires synchronously on subscribe with the initial parameters): derive the
query endpoint, register the query replication, maybe pause a replaced one,
install it in the active registry, and start it.  The collection-replication
instance's own flags are not tracked (no claim observes them); the derived
endpoint is passed in explicitly (`buildEndpointWithParams`). -/
def onNewQueryState (m : MState) (key : String)
    (endpoint derivedEndpoint : String) : MState :=
  let rc := registerCollectionReplication m endpoint
  let m1 := { rc.1 with
    activeCollectionReplications := setReg rc.1.activeCollectionReplications key rc.2 }
  let rq := registerQueryReplication m1 derivedEndpoint
  let m2 := rq.1
  let m3 :=
    if (rlookup m2.activeQueryReplications key).isSome then
      (maybePauseQueryReplications m2 key).getD m2
    else m2
  let m4 := { m3 with activeQueryReplications := setReg m3.activeQueryReplications key rq.2 }
  { m4 with queryRepInsts := startInst m4.queryRepInsts rq.2 }

/-- `Manager.registerQuery` — dedup on the serialized key (`key` is already
the result of `stringify(queryKeys)`): when absent and the named collection
resolves, create the evaluator (fresh id), store it, and run the onboarding;
finally return `queryStates.get(key)`. -/
def registerQuery (m : MState) (key : String) (collectionPresent : Bool)
    (endpoint derivedEndpoint : String) : MState × Option Nat :=
  let m' :=
    if (rlookup m.queryStates key).isSome then m
    else if collectionPresent then
      let qid := m.nextId
      let m1 := { m with queryStates := setReg m.queryStates key qid, nextId := m.nextId + 1 }
      onNewQueryState m1 key endpoint derivedEndpoint
    else m
  (m', rlookup m'.queryStates key)

theorem rlookup_setReg_self {κ β : Type} [DecidableEq κ]
    (l : List (κ × β)) (k : κ) (v : β) : rlookup (setReg l k v) k = some v := by
  induction l with
  | nil => simp [setReg, rlookup]
  | cons kv rest ih =>
    by_cases h : kv.1 = k
    · simp [setReg, rlookup, h]
    · simp [setReg, rlookup, h, ih]

theorem rlookup_delReg_ne {κ β : Type} [DecidableEq κ]
    (l : List (κ × β)) (k k' : κ) (h : k ≠ k') :
    rlookup (delReg l k) k' = rlookup l k' := by
  induction l with
  | nil => rfl
  | cons kv rest ih =>
    by_cases h1 : kv.1 = k
    · have h2 : kv.1 ≠ k' := by rw [h1] ; exact h
      simp [delReg, rlookup, h1, h2, h]
    · by_cases h2 : kv.1 = k'
      · simp [delReg, rlookup, h1, h2, h, Ne.symm h]
      · simp [delReg, rlookup, h1, h2, ih]

theorem rlookup_pauseInst_self (l : List (Nat × QueryRepInst)) (rid : Nat) :
    rlookup (pauseInst l rid) rid
      = (rlookup l rid).map (fun r => { r with paused := true }) := by
  induction l with
  | nil => rfl
  | cons kv rest ih =>
    by_cases h : kv.1 = rid
    · simp [pauseInst, rlookup, h]
    · simp only [pauseInst, List.map_cons, rlookup, if_neg h]
      exact ih

theorem queryStates_registerCollectionReplication (m : MState) (ep : String) :
    ((registerCollectionReplication m ep).1).queryStates = m.queryStates := by
  unfold registerCollectionReplication
  cases h : rlookup m.replicationStates ep with
  | none => rfl
  | some rs => cases rs <;> rfl

theorem queryStates_registerQueryReplication (m : MState) (ep : String) :
    ((registerQueryReplication m ep).1).queryStates = m.queryStates := by
  unfold registerQueryReplication
  cases h : rlookup m.replicationStates ep with
  | none => rfl
  | some rs => cases rs <;> rfl

theorem queryStates_maybePause_getD (m : MState) (k : String) :
    ((maybePauseQueryReplications m k).getD m).queryStates = m.queryStates := by
  unfold maybePauseQueryReplications
  cases h1 : rlookup m.activeQueryReplications k with
  | none => rfl
  | some rid =>
    dsimp only
    cases h2 : rlookup m.queryRepInsts rid with
    | none => rfl
    | some inst =>
      dsimp only
      by_cases h3 :
          (getActiveQueryReplicationStatesByEndpoint m inst.endpoint).length = 1
      · simp [h3]
      · simp [h3]

theorem queryStates_onNewQueryState (m : MState) (k e d : String) :
    (onNewQueryState m k e d).queryStates = m.queryStates := by
  unfold onNewQueryState
  dsimp only
  split
  · rw [queryStates_maybePause_getD, queryStates_registerQueryReplication]
    exact queryStates_registerCollectionReplication m e
  · rw [queryStates_registerQueryReplication]
    exact queryStates_registerCollectionReplication m e

/-- A Manager state with two registered queries `k1`, `k2` whose active query
replications share the one (unpaused, started) replicator instance `10` at
endpoint `ep`. -/
def c3M0 : MState :=
  { queryStates := [("k1", 1), ("k2", 2)],
    replicationStates := [("ep", RepState.queryRep 10)],
    activeCollectionReplications := [("k1", 20), ("k2", 20)],
    activeQueryReplications := [("k1", 10), ("k2", 10)],
    queryRepInsts := [(10, { endpoint := "ep", paused := false })],
    nextId := 30 }

/-- C3, counterexample: with two queries sharing the replicator at endpoint
`ep`, deregistering the first and then the second (last) query leaves the
shared QueryReplicator unpaused — `deregisterQuery` deletes the registry
entries but never pauses, so the claim's second half ("deregistering the
second (last) query pauses it") is false on this input. -/
theorem c3_referencePause_counterexample :
    pausedOf (deregisterQuery (deregisterQuery c3M0 "k1") "k2") 10 = some false ∧
    pausedOf (deregisterQuery (deregisterQuery c3M0 "k1") "k2") 10 ≠ some true := by
  refine ⟨by decide, by decide⟩

/-- C3, amended: deregistering a query never pauses the shared
QueryReplicator by itself — neither the first nor the last deregistration
does.  The reference-counted pause is performed by
`maybePauseQueryReplications`: invoked for a query while both queries'
active replications point at the shared endpoint it does not pause (and
leaves the state unchanged), and invoked for the surviving query after the
first has been deregistered it pauses the shared replicator. -/
theorem c3_referencePause_amended (m : MState) (k1 k2 ep : String)
    (rid q1 q2 : Nat) (hk : k1 ≠ k2)
    (hq1 : rlookup m.queryStates k1 = some q1)
    (hq2 : rlookup m.queryStates k2 = some q2)
    (hact : m.activeQueryReplications = [(k1, rid), (k2, rid)])
    (hinst : rlookup m.queryRepInsts rid = some { endpoint := ep, paused := false }) :
    pausedOf (deregisterQuery m k1) rid = some false ∧
    pausedOf (deregisterQuery (deregisterQuery m k1) k2) rid = some false ∧
    maybePauseQueryReplications m k1 = some m ∧
    (∃ m', maybePauseQueryReplications (deregisterQuery m k1) k2 = some m' ∧
      pausedOf m' rid = some true) := by
  have h1 : deregisterQuery m k1 =
      { m with
        queryStates := delReg m.queryStates k1,
        activeCollectionReplications := delReg m.activeCollectionReplications k1,
        activeQueryReplications := delReg m.activeQueryReplications k1 } := by
    simp [deregisterQuery, hq1]
  have hdel : delReg m.activeQueryReplications k1 = [(k2, rid)] := by
    simp [hact, delReg]
  have h2 : rlookup (delReg m.queryStates k1) k2 = some q2 := by
    rw [rlookup_delReg_ne _ _ _ hk]
    exact hq2
  refine ⟨?_, ?_, ?_, ?_⟩
  · rw [h1]
    simp [pausedOf, hinst]
  · rw [h1]
    simp [deregisterQuery, h2, pausedOf, hinst]
  · simp [maybePauseQueryReplications, hact, rlookup, hinst,
      getActiveQueryReplicationStatesByEndpoint]
  · refine ⟨{ m with
      queryStates := delReg m.queryStates k1,
      activeCollectionReplications := delReg m.activeCollectionReplications k1,
      activeQueryReplications := [(k2, rid)],
      queryRepInsts := pauseInst m.queryRepInsts rid }, ?_, ?_⟩
    · rw [h1, hdel]
      simp [maybePauseQueryReplications, rlookup, hinst,
        getActiveQueryReplicationStatesByEndpoint]
    · simp [pausedOf, rlookup_pauseInst_self, hinst]

/-- Witness for the amended C3 at a concrete input. -/
theorem c3_referencePause_witness :
    pausedOf (deregisterQuery c3M0 "k1") 10 = some false :=
  (c3_referencePause_amended c3M0 "k1" "k2" "ep" 10 1 2 (by decide) (by decide)
    (by decide) rfl (by decide)).1

/-- C5: re-registering a query with a key that serializes identically is a
no-op returning the stored evaluator (the whole Manager state is unchanged by
the second call), and re-registering a replicator for an endpoint that
already holds a matching-variant instance is a no-op returning the existing
instance — for both the query-replication and the collection-replication
variants. -/
theorem c5_dedup (m : MState) (key : String) (cp : Bool) (ep dep : String) :
    registerQuery (registerQuery m key cp ep dep).1 key cp ep dep
      = registerQuery m key cp ep dep ∧
    (∀ (ep2 : String) (i : Nat),
      rlookup m.replicationStates ep2 = some (RepState.queryRep i) →
        registerQueryReplication m ep2 = (m, i)) ∧
    (∀ (ep2 : String) (i : Nat),
      rlookup m.replicationStates ep2 = some (RepState.collectionRep i) →
        registerCollectionReplication m ep2 = (m, i)) := by
  refine ⟨?_, ?_, ?_⟩
  · cases h : rlookup m.queryStates key with
    | some qid => simp [registerQuery, h]
    | none =>
      cases cp with
      | false => simp [registerQuery, h]
      | true =>
        have hq : rlookup (onNewQueryState
            { m with
              queryStates := setReg m.queryStates key m.nextId,
              nextId := m.nextId + 1 } key ep dep).queryStates key
            = some m.nextId := by
          rw [queryStates_onNewQueryState]
          exact rlookup_setReg_self m.queryStates key m.nextId
        simp [registerQuery, h, hq]
  · intro ep2 i h
    simp [registerQueryReplication, h]
  · intro ep2 i h
    simp [registerCollectionReplication, h]

/-- A Manager state with an existing query replicator at endpoint `e`. -/
def c5M0 : MState :=
  { queryStates := [],
    replicationStates := [("e", RepState.queryRep 4)],
    activeCollectionReplications := [],
    activeQueryReplications := [],
    queryRepInsts := [(4, { endpoint := "e", paused := false })],
    nextId := 5 }

/-- Witness for C5 at a concrete input. -/
theorem c5_dedup_witness :
    registerQuery (registerQuery c5M0 "k" true "c" "d").1 "k" true "c" "d"
      = registerQuery c5M0 "k" true "c" "d" ∧
    registerQueryReplication c5M0 "e" = (c5M0, 4) :=
  ⟨(c5_dedup c5M0 "k" true "c" "d").1,
   (c5_dedup c5M0 "k" true "c" "d").2.1 "e" 4 (by decide)⟩

end MG

namespace QS

/-- Sort direction (`'asc' | 'desc'`). -/
inductive Dir where
  | asc
  | desc
deriving DecidableEq, Repr

/-- A `search` parameter value: a free-text string or a record-style search
object (`string | Record<string, any>`).  Clause and record values are opaque
to every claim, so they are drawn from an arbitrary type `V` with decidable
equality. -/
inductive SearchQ (V : Type) where
  | str (s : String)
  | obj (v : V)
deriving DecidableEq

/-- One `whereClauses` entry: `{ field, value }`. -/
structure WhereClause (V : Type) where
  field : String
  value : V
deriving DecidableEq

/-- A parameter snapshot (`QueryParams`).  A JS key that is absent is `none`;
`selector` is a JS object modelled as an insertion-ordered association
list. -/
structure QueryParams (V : Type) where
  search : Option (SearchQ V) := none
  sortBy : Option String := none
  sortDirection : Option Dir := none
  selector : List (String × V) := []
deriving DecidableEq

/-- A stored document: its primary-key value and an opaque payload. -/
structure Doc (V : Type) where
  pk : String
  payload : V
deriving DecidableEq

/-- A ranked hit returned by the search service (`id`, optional `score` and
search-lineage fields). -/
structure SearchHit where
  id : String
  score : Option Int := none
  parentSearchTerm : Option String := none
  childrenSearchCount : Option Nat := none
deriving DecidableEq, Repr

/-- One entry of `QueryResult.hits`.  On the search-active path the ranked
hit's fields are spread and the matched document attached; on the
search-inactive path only `{ id, document }` is built (the optional fields
stay absent). -/
structure ResultHit (V : Type) where
  id : String
  score : Option Int := none
  parentSearchTerm : Option String := none
  childrenSearchCount : Option Nat := none
  document : Doc V
deriving DecidableEq

/-- A published query result.  `searchTerm` is only set by the search-active
path; `elapsed` is stamped in `find$` from wall-clock time. -/
structure QueryResultR (V : Type) where
  elapsed : Nat
  searchActive : Bool
  searchTerm : Option String := none
  count : Nat
  hits : List (ResultHit V)
deriving DecidableEq

/-- `{ ...hit, document }` for one ranked hit and its matched document. -/
def mkSearchHit {V : Type} (h : SearchHit) (d : Doc V) : ResultHit V :=
  { id := h.id, score := h.score, parentSearchTerm := h.parentSearchTerm,
    childrenSearchCount := h.childrenSearchCount, document := d }

/-- `Query.handleSearchActive` — attach to each ranked hit the store document
with matching primary key and drop hits whose document is absent (the
source's map-then-filter-on-`undefined` is this one `filterMap`); the result
keeps the search service's rank order, sets `searchActive`/`searchTerm`, and
counts the kept hits. -/
def handleSearchActive {V : Type} (term : String) (searchHits : List SearchHit)
    (docs : List (Doc V)) : QueryResultR V :=
  let filteredAndSortedDocs := searchHits.filterMap (fun h =>
    (docs.find? (fun d => decide (d.pk = h.id))).map (fun d => mkSearchHit h d))
  { elapsed := 0, searchActive := true, searchTerm := some term,
    count := filteredAndSortedDocs.length, hits := filteredAndSortedDocs }

/-- `Query.handleSearchInactive` — order the store's matching documents by
the single sort key when one is set (`if (sortBy && sortDirection)`; an empty
`sortBy` string is falsy in JS), apply the optional `postQueryResult` hook,
then shape `{ id, document }` hits and count them.  The external ordering
library (`orderBy`) is an opaque function parameter. -/
def handleSearchInactive {V : Type} (docs : List (Doc V)) (sortBy : Option String)
    (sortDirection : Option Dir)
    (ord : String → Dir → List (Doc V) → List (Doc V))
    (post : Option (List (Doc V) → List (Doc V))) : QueryResultR V :=
  let sorted :=
    match sortBy, sortDirection with
    | some f, some d => if f = "" then docs else ord f d docs
    | _, _ => docs
  let final :=
    match post with
    | some p => p sorted
    | none => sorted
  { elapsed := 0, searchActive := false, searchTerm := none,
    count := final.length,
    hits := final.map (fun d => ({ id := d.pk, document := d } : ResultHit V)) }

/-- The collaborators one evaluation runs against: the params serializer
(`JSON.stringify`), the optional `preQueryParams` hook, the search service,
the store's `find` (as a pure snapshot: selector → matching documents, the
error-free pipeline of the claim), the ordering library, and the optional
`postQueryResult` hook. -/
structure Env (V : Type) where
  serializeP : QueryParams V → String
  pre : Option (QueryParams V → QueryParams V)
  searchHitsFor : String → List SearchHit
  docsFor : List (String × V) → List (Doc V)
  ord : String → Dir → List (Doc V) → List (Doc V)
  post : Option (List (Doc V) → List (Doc V))

/-- `typeof search === 'string' && !isEmpty(search)` — the search string when
the search-active path is taken. -/
def searchString {V : Type} (p : QueryParams V) : Option String :=
  match p.search with
  | some (SearchQ.str s) => if s = "" then none else some s
  | _ => none

/-- Apply the `preQueryParams` hook when configured (the params are cloned
first in the source; cloning is the identity in a pure model). -/
def applyPre {V : Type} (env : Env V) (p : QueryParams V) : QueryParams V :=
  match env.pre with
  | some f => f p
  | none => p

/-- One evaluation of `find$` for a parameter snapshot: pre-hook, then the
search-active or search-inactive branch. -/
def evaluate {V : Type} (env : Env V) (p : QueryParams V) : QueryResultR V :=
  let modifiedParams := applyPre env p
  match searchString modifiedParams with
  | some s =>
    handleSearchActive s (env.searchHitsFor s) (env.docsFor modifiedParams.selector)
  | none =>
    handleSearchInactive (env.docsFor modifiedParams.selector)
      modifiedParams.sortBy modifiedParams.sortDirection env.ord env.post

/-- Stamp the elapsed wall-clock time onto a result (`{ elapsed, ...result }`). -/
def stamp {V : Type} (e : Nat) (r : QueryResultR V) : QueryResultR V :=
  { r with elapsed := e }

/-- The `distinctUntilChanged` comparator on consecutive results, translated
clause by clause from the `Query` constructor: early `false` when
`searchActive` or `searchTerm` changed; `idsAreEqual` compares the id
sequences; `childrenAreEqual` is checked only when the ids are equal and the
next result is search-active, comparing `parentSearchTerm`,
`childrenSearchCount` and `score` positionally (the id equality guarantees
equal lengths, so the positional `every` is the `zip`). -/
def resultsEquivalent {V : Type} [DecidableEq V]
    (prev next : QueryResultR V) : Bool :=
  if prev.searchActive ≠ next.searchActive ∨ prev.searchTerm ≠ next.searchTerm then
    false
  else
    let idsAreEqual :=
      decide (prev.hits.map (fun h => h.id) = next.hits.map (fun h => h.id))
    let childrenAreEqual :=
      if idsAreEqual ∧ next.searchActive then
        (prev.hits.zip next.hits).all (fun hp =>
          decide (hp.1.parentSearchTerm = hp.2.parentSearchTerm ∧
            hp.1.childrenSearchCount = hp.2.childrenSearchCount ∧
            hp.1.score = hp.2.score))
      else true
    idsAreEqual && childrenAreEqual

/-- The state of the params→result pipeline: the last value that passed the
`params$` `distinctUntilChanged`, the last emitted result (what the result
comparator compares against), and how many results have been emitted. -/
structure PipeState (V : Type) where
  lastParams : Option (QueryParams V)
  lastResult : Option (QueryResultR V)
  emissions : Nat
deriving DecidableEq

/-- The result-side `distinctUntilChanged` + `subscribe`: emit the candidate
result unless the comparator judges it equivalent to the last emitted one. -/
def maybeEmit {V : Type} [DecidableEq V] (st : PipeState V) (r : QueryResultR V) :
    PipeState V :=
  match st.lastResult with
  | some r0 =>
    if resultsEquivalent r0 r then st
    else { st with lastResult := some r, emissions := st.emissions + 1 }
  | none => { st with lastResult := some r, emissions := st.emissions + 1 }

/-- Pushing one parameter snapshot through the pipeline: `params$` is piped
through `distinctUntilChanged((prev, next) => JSON.stringify(prev) ===
JSON.stringify(next))`, and a snapshot that passes is evaluated (`find$`),
stamped with the elapsed time `e` of this evaluation, and offered to the
result comparator. -/
def pushParams {V : Type} [DecidableEq V] (env : Env V) (st : PipeState V)
    (p : QueryParams V) (e : Nat) : PipeState V :=
  match st.lastParams with
  | some prev =>
    if env.serializeP prev = env.serializeP p then st
    else maybeEmit { st with lastParams := some p } (stamp e (evaluate env p))
  | none => maybeEmit { st with lastParams := some p } (stamp e (evaluate env p))

/-- The fields a call to `updateParams` passes as `additionalParams`: a JS
key present in the patch overwrites the current snapshot's key (`{
...currentParams, ...additionalParams, selector }`); every call site passes
only defined values. -/
structure ParamsPatch (V : Type) where
  search : Option (SearchQ V) := none
  sortBy : Option String := none
  sortDirection : Option Dir := none
deriving DecidableEq

/-- The mutable state of a `Query` that the selector-mutation claims observe:
the clause list and the `params` `BehaviorSubject` current value (undefined
before first use). -/
structure QState (V : Type) where
  whereClauses : List (WhereClause V)
  params : Option (QueryParams V)
deriving DecidableEq

/-- JS object key assignment `acc[k] = v`: overwrite in place, else append. -/
def objSet {V : Type} : List (String × V) → String → V → List (String × V)
  | [], k, v => [(k, v)]
  | kv :: rest, k, v => if kv.1 = k then (k, v) :: rest else kv :: objSet rest k v

/-- The selector built by `updateParams`:
`whereClauses.reduce((acc, clause) => { acc[clause.field] = clause.value;
return acc; }, {})`. -/
def selectorFromClauses {V : Type} [DecidableEq V] (cs : List (WhereClause V)) :
    List (String × V) :=
  cs.foldl (fun acc c => objSet acc c.field c.value) []

/-- `Query.getParams()` — the current value of the params subject. -/
def getParams {V : Type} (q : QState V) : Option (QueryParams V) := q.params

/-- `Query.updateParams(additionalParams)` — rebuild the selector from the
clause list, merge `{ ...currentParams, ...additionalParams, selector }`
(with `currentParams = getParams() || {}`), and push the new snapshot. -/
def updateParams {V : Type} [DecidableEq V] (q : QState V) (patch : ParamsPatch V) :
    QState V :=
  let selector := selectorFromClauses q.whereClauses
  let currentParams := (getParams q).getD {}
  let newParams : QueryParams V :=
    { search :=
        match patch.search with
        | some v => some v
        | none => currentParams.search,
      sortBy :=
        match patch.sortBy with
        | some v => some v
        | none => currentParams.sortBy,
      sortDirection :=
        match patch.sortDirection with
        | some v => some v
        | none => currentParams.sortDirection,
      selector := selector }
  { q with params := some newParams }

/-- `existingClause.value = value` — replace the value of the first clause
for the field (`find` returns the first match). -/
def replaceFirstClause {V : Type} [DecidableEq V] :
    List (WhereClause V) → String → V → List (WhereClause V)
  | [], _, _ => []
  | c :: cs, f, v =>
    if c.field = f then { field := f, value := v } :: cs
    else c :: replaceFirstClause cs f v

/-- `Query.where(field, value)` (the `query-state.ts` variant): a `null` or
`undefined` value removes every clause for the field; otherwise the first
existing clause for the field has its value replaced, or a new clause is
appended; then `updateParams()` pushes a fresh snapshot. -/
def whereQ {V : Type} [DecidableEq V] (q : QState V) (f : String)
    (value : Option V) : QState V :=
  let cs :=
    match value with
    | none => q.whereClauses.filter (fun c => decide (c.field ≠ f))
    | some v =>
      match q.whereClauses.find? (fun c => decide (c.field = f)) with
      | some _ => replaceFirstClause q.whereClauses f v
      | none => q.whereClauses ++ [{ field := f, value := v }]
  updateParams { q with whereClauses := cs } {}

/-- `Query.sort(sortBy, sortDirection)` — the string overload. -/
def sortQ {V : Type} [DecidableEq V] (q : QState V) (sortBy : String)
    (sortDirection : Dir) : QState V :=
  updateParams q { sortBy := some sortBy, sortDirection := some sortDirection }

/-- `Query.sort(sortObj)` — the object overload: the last field-direction
entry wins (`Object.entries(sortByOrObj).pop()`); destructuring the `pop()`
of an empty object throws, modelled as `none`. -/
def sortObjQ {V : Type} [DecidableEq V] (q : QState V)
    (pairs : List (String × Dir)) : Option (QState V) :=
  match pairs.getLast? with
  | some fd =>
    some (updateParams q { sortBy := some fd.1, sortDirection := some fd.2 })
  | none => none

/-- `Query.search(query)` — push a snapshot with the new search value. -/
def searchQ {V : Type} [DecidableEq V] (q : QState V) (query : SearchQ V) :
    QState V :=
  updateParams q { search := some query }

/-- The result-equivalence condition exactly as claim C7 words it, to be
compared with the comparator translated from the source:  `searchActive` and
`searchTerm` unchanged, hit-id sequence identical in membership and order,
and — only when search is active — each corresponding hit's lineage fields
and score unchanged. -/
def SpecEquivalent {V : Type} (prev next : QueryResultR V) : Prop :=
  prev.searchActive = next.searchActive ∧
  prev.searchTerm = next.searchTerm ∧
  prev.hits.map (fun h => h.id) = next.hits.map (fun h => h.id) ∧
  (next.searchActive = true →
    ∀ hp ∈ prev.hits.zip next.hits,
      hp.1.parentSearchTerm = hp.2.parentSearchTerm ∧
      hp.1.childrenSearchCount = hp.2.childrenSearchCount ∧
      hp.1.score = hp.2.score)

theorem mem_zip_self {α : Type} {l : List α} {p : α × α} (h : p ∈ l.zip l) :
    p.1 = p.2 := by
  induction l with
  | nil => cases h
  | cons x xs ih =>
    rw [List.zip_cons_cons] at h
    rcases List.mem_cons.mp h with h1 | h1
    · rw [h1]
    · exact ih h1

/-- C6: pushing a parameter snapshot equal (structurally — values in Lean
are compared structurally, and the `params$` comparator compares the
serialized forms, which coincide on equal snapshots) to the previously
pushed one is dropped by the params-level `distinctUntilChanged`, so the
pipeline state — in particular the emission count — is unchanged, whatever
elapsed time this evaluation would have been stamped with. -/
theorem c6_resultStability {V : Type} [DecidableEq V] (env : Env V)
    (st : PipeState V) (p : QueryParams V) (e : Nat)
    (h : st.lastParams = some p) :
    pushParams env st p e = st := by
  unfold pushParams
  rw [h]
  simp

/-- Concrete pipeline pieces for the C6 witness. -/
def c6Env : Env Nat :=
  { serializeP := fun _ => "s", pre := none, searchHitsFor := fun _ => [],
    docsFor := fun _ => [], ord := fun _ _ l => l, post := none }

def c6P : QueryParams Nat := {}

def c6St : PipeState Nat :=
  { lastParams := some c6P, lastResult := none, emissions := 3 }

/-- Witness for C6 at a concrete input. -/
theorem c6_resultStability_witness : pushParams c6Env c6St c6P 9 = c6St :=
  c6_resultStability c6Env c6St c6P 9 rfl

/-- C7: the source comparator judges two consecutive results equivalent
exactly under the claim's condition (`SpecEquivalent`); a result differing
only in its elapsed time is always judged equivalent; and when a last
emitted result exists, offering a candidate to the result-side
`distinctUntilChanged` leaves the pipeline state unchanged (the emission is
suppressed) precisely when the comparator judges them equivalent. -/
theorem c7_resultComparator {V : Type} [DecidableEq V] :
    (∀ prev next : QueryResultR V,
      resultsEquivalent prev next = true ↔ SpecEquivalent prev next) ∧
    (∀ (r : QueryResultR V) (e : Nat),
      resultsEquivalent r { r with elapsed := e } = true) ∧
    (∀ (st : PipeState V) (r0 r : QueryResultR V), st.lastResult = some r0 →
      (maybeEmit st r = st ↔ resultsEquivalent r0 r = true)) := by
  have hiff : ∀ prev next : QueryResultR V,
      resultsEquivalent prev next = true ↔ SpecEquivalent prev next := by
    intro prev next
    unfold resultsEquivalent SpecEquivalent
    by_cases hsa : prev.searchActive = next.searchActive
    · by_cases hst : prev.searchTerm = next.searchTerm
      · by_cases hids :
            prev.hits.map (fun h => h.id) = next.hits.map (fun h => h.id)
        · by_cases hact : next.searchActive = true
          · simp [hsa, hst, hids, hact, List.all_eq_true, decide_eq_true_eq]
          · simp [hsa, hst, hids, hact]
        · simp [hsa, hst, hids]
      · simp [hst]
    · simp [hsa]
  have helapsed : ∀ (r : QueryResultR V) (e : Nat),
      resultsEquivalent r { r with elapsed := e } = true := by
    intro r e
    rw [hiff]
    refine ⟨rfl, rfl, rfl, fun _ hp hmem => ?_⟩
    have h12 : hp.1 = hp.2 := mem_zip_self hmem
    rw [h12]
    exact ⟨rfl, rfl, rfl⟩
  refine ⟨hiff, helapsed, fun st r0 r h => ?_⟩
  unfold maybeEmit
  rw [h]
  dsimp only
  by_cases hq : resultsEquivalent r0 r = true
  · rw [if_pos hq]
    simp [hq]
  · rw [if_neg hq]
    apply iff_of_false
    · intro hcontra
      have hem := congrArg PipeState.emissions hcontra
      simp at hem
    · exact hq

/-- Concrete results for the C7 witness. -/
def c7R0 : QueryResultR Nat :=
  { elapsed := 1, searchActive := false, count := 0, hits := [] }

def c7R : QueryResultR Nat :=
  { elapsed := 5, searchActive := false, count := 0, hits := [] }

def c7St : PipeState Nat :=
  { lastParams := none, lastResult := some c7R0, emissions := 2 }

/-- Witness for C7 at a concrete input. -/
theorem c7_resultComparator_witness :
    maybeEmit c7St c7R = c7St ↔ resultsEquivalent c7R0 c7R = true :=
  (@c7_resultComparator Nat _).2.2 c7St c7R0 c7R rfl

/-- C9: on both evaluation paths — and hence in every result the evaluation
produces, for every choice of ordering library and `postQueryResult` hook —
the `count` field equals the length of the `hits` array. -/
theorem c9_countInvariant {V : Type} [DecidableEq V] :
    (∀ (env : Env V) (p : QueryParams V),
      (evaluate env p).count = (evaluate env p).hits.length) ∧
    (∀ (term : String) (searchHits : List SearchHit) (docs : List (Doc V)),
      (handleSearchActive term searchHits docs).count
        = (handleSearchActive term searchHits docs).hits.length) ∧
    (∀ (docs : List (Doc V)) (sb : Option String) (sd : Option Dir)
      (ord : String → Dir → List (Doc V) → List (Doc V))
      (post : Option (List (Doc V) → List (Doc V))),
      (handleSearchInactive docs sb sd ord post).count
        = (handleSearchInactive docs sb sd ord post).hits.length) := by
  refine ⟨?_, ?_, ?_⟩
  · intro env p
    unfold evaluate
    cases hs : searchString (applyPre env p) <;> simp only [hs] <;>
      simp [handleSearchActive, handleSearchInactive]
  · intro term searchHits docs
    simp [handleSearchActive]
  · intro docs sb sd ord post
    simp [handleSearchInactive]

theorem replaceFirstClause_eq_map {V : Type} [DecidableEq V]
    (l : List (WhereClause V)) (f : String) (v : V)
    (h : l.countP (fun c => decide (c.field = f)) ≤ 1) :
    replaceFirstClause l f v
      = l.map (fun c => if c.field = f then { field := f, value := v } else c) := by
  induction l with
  | nil => rfl
  | cons c cs ih =>
    by_cases hc : c.field = f
    · rw [List.countP_cons] at h
      simp [hc] at h
      simp only [replaceFirstClause, if_pos hc, List.map_cons]
      congr 1
      have hcong : ∀ x ∈ cs,
          (if x.field = f then ({ field := f, value := v } : WhereClause V) else x)
            = id x := by
        intro x hx
        rw [if_neg (h x hx)]
        rfl
      rw [List.map_congr_left hcong, List.map_id]
    · rw [List.countP_cons] at h
      simp [hc] at h
      simp only [replaceFirstClause, if_neg hc, List.map_cons]
      rw [ih h]

/-- C8: `where(field, value)` with a non-null value appends a fresh clause
when none exists for the field, and otherwise (when clauses per field are
unique, which `where` itself maintains) replaces the value of the existing
clause in place — same clause list shape and length, no duplicate added;
`where(field, null)` leaves no clause for the field and keeps every clause
for other fields; and every call pushes a new parameter snapshot whose
selector is derived from the resulting clause list. -/
theorem c8_whereUpsert {V : Type} [DecidableEq V] (q : QState V) (f : String)
    (v : V) :
    (q.whereClauses.find? (fun c => decide (c.field = f)) = none →
      (whereQ q f (some v)).whereClauses
        = q.whereClauses ++ [{ field := f, value := v }]) ∧
    (q.whereClauses.countP (fun c => decide (c.field = f)) ≤ 1 →
      ∀ c0, q.whereClauses.find? (fun c => decide (c.field = f)) = some c0 →
      (whereQ q f (some v)).whereClauses
        = q.whereClauses.map
            (fun c => if c.field = f then { field := f, value := v } else c) ∧
      ((whereQ q f (some v)).whereClauses).length = q.whereClauses.length) ∧
    (∀ c ∈ (whereQ q f none).whereClauses, c.field ≠ f) ∧
    (∀ c ∈ q.whereClauses, c.field ≠ f → c ∈ (whereQ q f none).whereClauses) ∧
    (∀ w : Option V, ∃ pr, (whereQ q f w).params = some pr ∧
      pr.selector = selectorFromClauses ((whereQ q f w).whereClauses)) := by
  refine ⟨?_, ?_, ?_, ?_, ?_⟩
  · intro hf
    simp [whereQ, hf, updateParams]
  · intro hcount c0 hf
    have hrep := replaceFirstClause_eq_map q.whereClauses f v hcount
    constructor
    · simp [whereQ, hf, updateParams, hrep]
    · simp [whereQ, hf, updateParams, hrep, List.length_map]
  · intro c hc
    simp only [whereQ, updateParams] at hc
    have h2 := List.mem_filter.mp hc
    simpa using h2.2
  · intro c hc hne
    simp only [whereQ, updateParams]
    exact List.mem_filter.mpr ⟨hc, by simpa using hne⟩
  · intro w
    unfold whereQ
    exact ⟨_, rfl, rfl⟩

/-- A concrete query state for the C8 witness. -/
def c8Q0 : QState Nat :=
  { whereClauses := [{ field := "a", value := 1 }], params := none }

/-- Witness for C8 at a concrete input. -/
theorem c8_whereUpsert_witness :
    (whereQ c8Q0 "b" (some 2)).whereClauses
      = [{ field := "a", value := 1 }, { field := "b", value := 2 }] :=
  (c8_whereUpsert c8Q0 "b" 2).1 (by decide)

/-- C10: `sort` (either overload) carries `search` over from the current
snapshot, `search` carries `sortBy`/`sortDirection` over, and `where`
carries all three over — each mutation method overwrites only its own
fields plus the selector derived from the clause list, and none of them
touches the clause list except `where`. -/
theorem c10_frame {V : Type} [DecidableEq V] (q : QState V) :
    (∀ (f : String) (d : Dir),
      (sortQ q f d).whereClauses = q.whereClauses ∧
      (sortQ q f d).params = some
        { search := ((getParams q).getD {}).search,
          sortBy := some f, sortDirection := some d,
          selector := selectorFromClauses q.whereClauses }) ∧
    (∀ t : SearchQ V,
      (searchQ q t).whereClauses = q.whereClauses ∧
      (searchQ q t).params = some
        { search := some t,
          sortBy := ((getParams q).getD {}).sortBy,
          sortDirection := ((getParams q).getD {}).sortDirection,
          selector := selectorFromClauses q.whereClauses }) ∧
    (∀ (f : String) (w : Option V), ∃ pr,
      (whereQ q f w).params = some pr ∧
      pr.search = ((getParams q).getD {}).search ∧
      pr.sortBy = ((getParams q).getD {}).sortBy ∧
      pr.sortDirection = ((getParams q).getD {}).sortDirection ∧
      pr.selector = selectorFromClauses ((whereQ q f w).whereClauses)) ∧
    (∀ (pairs : List (String × Dir)) (f : String) (d : Dir),
      sortObjQ q (pairs ++ [(f, d)]) = some (sortQ q f d)) := by
  refine ⟨fun f d => ⟨rfl, rfl⟩, fun t => ⟨rfl, rfl⟩,
    fun f w => ?_, fun pairs f d => ?_⟩
  · unfold whereQ
    exact ⟨_, rfl, rfl, rfl, rfl, rfl⟩
  · simp [sortObjQ, List.getLast?_concat, sortQ]

end QS
